import Mathlib

/-!
Verification development for the credit-report payment-history analyzer
(`server.js`).  The core of the program is two pure functions,
`analyzeTextContent` and `parsePaymentGrid`, operating on a stream of
positioned text items extracted from a document.  We embed them shallowly:
JavaScript numbers are modelled as integers (every quantity the program
compares or subtracts is a coordinate; the development works with exact
integral coordinates, on which `Math.round` is the identity), JavaScript
objects as structures, the stable `Array.prototype.sort` as a stable
insertion sort, and object-key iteration order as insertion-ordered
association lists.
-/

/-- A positioned text item: string content, 1-based page index, and the
two coordinates the program reads from the placement transform
(`transform[4]` is x, `transform[5]` is y; larger y is higher on the page). -/
structure TextItem where
  str : String
  page : Nat
  x : Int
  y : Int
deriving DecidableEq, Repr

/-- Model of the JavaScript `String.prototype.trim`: drop leading and
trailing whitespace characters. -/
def jsTrim (s : String) : String :=
  String.mk (((s.toList.dropWhile Char.isWhitespace).reverse.dropWhile
    Char.isWhitespace).reverse)

/-- Model of `String.prototype.toUpperCase`, mapping each character to its
upper-case form. -/
def jsToUpper (s : String) : String :=
  String.mk (s.toList.map Char.toUpper)

/-- Model of `Math.abs` on our integral coordinates. -/
def absInt (a : Int) : Int := if a < 0 then -a else a

/-- Model of `Math.round` on our integral coordinates: the identity. -/
def jsRound (y : Int) : Int := y

/-- Character-list version of the JavaScript `startsWith` test. -/
def listStartsWith : List Char → List Char → Bool
  | _, [] => true
  | [], _ :: _ => false
  | a :: as, b :: bs => a == b && listStartsWith as bs

/-- Character-list version of the JavaScript `String.prototype.includes`
substring test. -/
def containsSeq : List Char → List Char → Bool
  | [], pat => pat.isEmpty
  | a :: rest, pat => listStartsWith (a :: rest) pat || containsSeq rest pat

/-- Model of `s.includes(sub)` from JavaScript. -/
def strIncludes (s sub : String) : Bool :=
  containsSeq s.toList sub.toList

/-- The twelve month abbreviations recognised by the month-row classifier. -/
def monthNames : List String :=
  ["Jan", "Feb", "Mar", "Apr", "May", "Jun", "Jul", "Aug", "Sep", "Oct", "Nov", "Dec"]

/-- Model of the month-row membership test
`[...months].includes(item.str.trim())`. -/
def isMonthStr (s : String) : Bool := monthNames.contains s

/-- Model of the year test: the regular expression `^\d{2}$` applied to a
trimmed string holds exactly when the string is two decimal digits. -/
def isTwoDigitStr (s : String) : Bool :=
  s.length == 2 && s.toList.all Char.isDigit

/-- Row classifier: a month row contains an item whose trimmed string is a
month abbreviation. -/
def isMonthRow (row : List TextItem) : Bool :=
  row.any (fun it => isMonthStr (jsTrim it.str))

/-- Row classifier: a year row contains an item whose trimmed string is
exactly two digits. -/
def isYearRow (row : List TextItem) : Bool :=
  row.any (fun it => isTwoDigitStr (jsTrim it.str))

/-- Row classifier: a bureau row contains an item whose string includes the
bureau name. -/
def hasBureau (name : String) (row : List TextItem) : Bool :=
  row.any (fun it => strIncludes it.str name)

/-- First-occurrence list of the row keys, modelling the object insertion
order used by `rows[y]`. -/
def firstKeys : List Int → List Int
  | [] => []
  | k :: ks => k :: (firstKeys ks).filter (fun k2 => k2 != k)

/-- Grouping of the grid items into rows by rounded y-coordinate, each row
keeping the stream order of its items (`rows[y].push(item)`). -/
def rowsOf (items : List TextItem) : List (List TextItem) :=
  (firstKeys (items.map (fun it => jsRound it.y))).map
    (fun k => items.filter (fun it => jsRound it.y == k))

/-- The y-coordinate of the first item of a row (`row[0].transform[5]`);
rows produced by `rowsOf` are never empty, so the default is irrelevant. -/
def headY : List TextItem → Int
  | [] => 0
  | it :: _ => it.y

/-- Stable insertion of an element into a list ascending by `key`: the new
element goes after every element with a strictly smaller key and otherwise
before, which is exactly the placement a stable comparator sort gives. -/
def insertByKey {α : Type} (key : α → Int) (a : α) : List α → List α
  | [] => [a]
  | b :: bs => if key b < key a then b :: insertByKey key a bs else a :: b :: bs

/-- Stable sort ascending by `key`, modelling the (stable)
`Array.prototype.sort` with a numeric comparator. -/
def sortByKey {α : Type} (key : α → Int) : List α → List α
  | [] => []
  | a :: as => insertByKey key a (sortByKey key as)

/-- Rows of the grid sorted by y descending (`sortedRows`): ascending by
negated head y. -/
def gridRows (items : List TextItem) : List (List TextItem) :=
  sortByKey (fun row => -(headY row)) (rowsOf items)

/-- A grid header: month label, x position, and the year string, initially
the sentinel `N/A`. -/
structure Header where
  month : String
  x : Int
  year : String
deriving DecidableEq, Repr

/-- Headers built from the month row, sorted ascending by x. -/
def mkHeaders (monthRow : List TextItem) : List Header :=
  sortByKey Header.x
    (monthRow.map (fun it => { month := jsTrim it.str, x := it.x, year := "N/A" }))

/-- The scan `for each header: if (distance < minDistance) update`, carrying
the best (distance, index) pair; returns the first index attaining the
minimum distance. -/
def argminGo : List Int → Int → Nat → Nat → Int × Nat
  | [], bd, bi, _ => (bd, bi)
  | d :: ds, bd, bi, i =>
    if d < bd then argminGo ds d i (i + 1) else argminGo ds bd bi (i + 1)

/-- The nearest-column search over the headers: index of the first header at
minimum absolute x-distance from `x`, or `none` when there is no header
(the JavaScript loop then leaves `closestIndex === -1`). -/
def closestIdx (hs : List Header) (x : Int) : Option Nat :=
  match hs.map (fun h => absInt (h.x - x)) with
  | [] => none
  | d :: ds => some (argminGo ds d 0 1).2

/-- Replacement of the year field of the header at a given index
(`headers[i].year = s`); out-of-range indices leave the list unchanged. -/
def setYear (s : String) : Nat → List Header → List Header
  | _, [] => []
  | 0, h :: hs => { h with year := s } :: hs
  | n + 1, h :: hs => h :: setYear s n hs

/-- The year-assignment pass: each year-row item writes the year
`"20" ++ trim` into the nearest header. -/
def assignYears (hs : List Header) (yearRow : List TextItem) : List Header :=
  yearRow.foldl
    (fun acc it =>
      match closestIdx acc it.x with
      | some i => setYear ("20" ++ jsTrim it.str) i acc
      | none => acc)
    hs

/-- The status-writing loop of a bureau row: each status item writes its
trimmed string into the nearest column (`statuses[i] = trim`). -/
def statusFold (hs : List Header) (sts : List String) (statusItems : List TextItem) :
    List String :=
  statusItems.foldl
    (fun acc it =>
      match closestIdx hs it.x with
      | some i => acc.set i (jsTrim it.str)
      | none => acc)
    sts

/-- Decoding of one bureau row: drop the label cells (items whose string
includes the bureau name), start from all-empty statuses, one per header,
and run the status-writing loop. -/
def processBureauRow (hs : List Header) (row : List TextItem) (bureauName : String) :
    List String :=
  statusFold hs (List.replicate hs.length "")
    (row.filter (fun it => !(strIncludes it.str bureauName)))

/-- A parsed grid: ordered headers plus an insertion-ordered association
list from bureau name to status list (modelling the object `data` and its
key order). -/
structure Grid where
  headers : List Header
  data : List (String × List String)
deriving DecidableEq, Repr

/-- Assembly of the data map: present bureau rows are inserted in the fixed
call order TransUnion, Experian, Equifax. -/
def mkData (hs : List Header) (tuRow expRow eqfRow : Option (List TextItem)) :
    List (String × List String) :=
  (match tuRow with
   | some r => [("TransUnion", processBureauRow hs r "TransUnion")]
   | none => []) ++
  (match expRow with
   | some r => [("Experian", processBureauRow hs r "Experian")]
   | none => []) ++
  (match eqfRow with
   | some r => [("Equifax", processBureauRow hs r "Equifax")]
   | none => [])

/-- The grid parser `parsePaymentGrid`: group the window items into rows,
classify the rows, and build headers, years, and bureau statuses; an empty
window, or a missing month or year row, yields the empty grid. -/
def parsePaymentGrid (gridItems : List TextItem) : Grid :=
  if gridItems.isEmpty then { headers := [], data := [] } else
  let rows := gridRows gridItems
  let tuRow := rows.find? (hasBureau "TransUnion")
  let expRow := rows.find? (hasBureau "Experian")
  let eqfRow := rows.find? (hasBureau "Equifax")
  match rows.find? isMonthRow, rows.find? isYearRow with
  | some monthRow, some yearRow =>
    let headers := assignYears (mkHeaders monthRow) yearRow
    { headers := headers, data := mkData headers tuRow expRow eqfRow }
  | _, _ => { headers := [], data := [] }

/-- The static status-code table `LEGEND`. -/
def LEGEND : List (String × String) :=
  [("OK", "Current"), ("30", "30 Days Late"), ("60", "60 Days Late"),
   ("90", "90 Days Late"), ("120", "120 Days Late"), ("150", "150 Days Late"),
   ("180", "180 Days Late"), ("CO", "Chargeoff or Collection"),
   ("RF", "Repossession or Foreclosure"), ("PP", "Payment Plan"),
   ("VS", "Voluntary Surrender"), ("NDP", "No Data Provided")]

/-- Lookup `LEGEND[code]`, `none` when the code is not a key. -/
def legendLookup (code : String) : Option String :=
  (LEGEND.find? (fun p => p.1 == code)).map Prod.snd

/-- One reported issue. -/
structure Issue where
  bureau : String
  month : String
  year : String
  status : String
deriving DecidableEq, Repr

/-- The per-bureau issue scan `grid.data[bureau].forEach((status, index))`:
a non-empty, non-OK trimmed status at index `n` emits an issue, with month
and year from the header at that index (or the defensive `N/A` fallback)
and the legend label, defaulting to the Unknown Code label. -/
def rowIssues (hs : List Header) (b : String) : Nat → List String → List Issue
  | _, [] => []
  | n, s :: rest =>
    (if jsTrim s ≠ "OK" ∧ jsTrim s ≠ "" then
      [{ bureau := b,
         month := ((hs.get? n).map Header.month).getD "N/A",
         year := ((hs.get? n).map Header.year).getD "N/A",
         status := (legendLookup (jsTrim s)).getD ("Unknown Code: " ++ jsTrim s) }]
     else []) ++ rowIssues hs b (n + 1) rest

/-- Appending loop accumulator shared by the issue scan and the account
loop (JavaScript `push` into an array inside a loop). -/
def pushAll {α β : Type} (f : α → List β) (l : List α) (acc : List β) : List β :=
  l.foldl (fun a x => a ++ f x) acc

/-- All issues of a grid: nothing when the header list is empty, else the
bureau rows scanned in data-key order. -/
def issuesOf (g : Grid) : List Issue :=
  if g.headers.isEmpty then []
  else pushAll (fun p => rowIssues g.headers p.1 0 p.2) g.data []

/-- One account record: display name plus its ordered issues. -/
structure Account where
  name : String
  issues : List Issue
deriving DecidableEq, Repr

/-- The sentinel phrase marking a payment-history section. -/
def sentinel : String := "Two-Year payment history"

/-- The markers: all items whose string includes the sentinel phrase, in
stream order. -/
def markersOf (items : List TextItem) : List TextItem :=
  items.filter (fun it => strIncludes it.str sentinel)

/-- Name candidates for a marker: items on the same page, strictly above
the marker, with trimmed length over 2 and a fully upper-case string. -/
def qualNames (items : List TextItem) (marker : TextItem) : List TextItem :=
  items.filter (fun it =>
    it.page == marker.page && decide (marker.y < it.y) &&
    decide (2 < (jsTrim it.str).length) && (jsToUpper it.str == it.str))

/-- One step of the closest-above scan: a candidate replaces the best pair
when its vertical distance is positive and strictly smaller (an absent best
pair stands for the initial infinite distance). -/
def caStep (markerY : Int) (best : Option (Int × TextItem)) (it : TextItem) :
    Option (Int × TextItem) :=
  let d := it.y - markerY
  match best with
  | none => if 0 < d then some (d, it) else none
  | some (md, c) => if 0 < d ∧ d < md then some (d, it) else some (md, c)

/-- The closest-above scan: starting from distance infinity, keep the first
candidate with a strictly smaller positive vertical distance. -/
def closestAbove (names : List TextItem) (markerY : Int) : Option (Int × TextItem) :=
  names.foldl (caStep markerY) none

/-- The resolved account name of a marker: candidates sorted by y
descending, then the closest-above scan; the trimmed string of the winner,
or the fallback name. -/
def accountNameOf (items : List TextItem) (marker : TextItem) : String :=
  let sortedNames := sortByKey (fun it => -it.y) (qualNames items marker)
  match closestAbove sortedNames marker.y with
  | some p => jsTrim p.2.str
  | none => "Unknown Account"

/-- The grid window of a marker: items on the same page with y strictly
between marker.y - 100 and marker.y - 20. -/
def gridWindow (items : List TextItem) (marker : TextItem) : List TextItem :=
  items.filter (fun it =>
    it.page == marker.page && decide (it.y < marker.y - 20) &&
    decide (marker.y - 100 < it.y))

/-- Per-marker processing: resolve the name, cut the window, parse the
grid, extract the issues. -/
def analyzeMarker (items : List TextItem) (marker : TextItem) : Account :=
  { name := accountNameOf items marker,
    issues := issuesOf (parsePaymentGrid (gridWindow items marker)) }

/-- The failure message thrown when no marker is found; the source message
additionally quotes the sentinel phrase. -/
def unsupportedMsg : String :=
  "Could not find any Two-Year payment history sections in the document. The format might not be supported."

/-- The analysis entry point `analyzeTextContent`: fail when no marker
exists, else build one account per marker in stream order and keep the
accounts with at least one issue. -/
def analyzeTextContent (items : List TextItem) : Except String (List Account) :=
  let markers := markersOf items
  if markers.isEmpty then Except.error unsupportedMsg
  else
    Except.ok
      (((markers.foldl (fun accs m => accs ++ [analyzeMarker items m]) []).filter
        (fun a => decide (0 < a.issues.length))))


/-- Uniform horizontal translation of a text item by `d`. -/
def shiftX (d : Int) (it : TextItem) : TextItem := { it with x := it.x + d }

/-- Uniform horizontal translation of a header by `d`. -/
def shiftHx (d : Int) (h : Header) : Header := { h with x := h.x + d }

/-! ## Concrete input streams used in the claim instances -/

deriving instance DecidableEq for Except

/-- One marker at the top of page 1, a grid window with month row Jan/Feb,
year row 23/23, and a TransUnion row with statuses 30 and empty. -/
def c1Items : List TextItem :=
  [ { str := "Two-Year payment history", page := 1, x := 0, y := 0 },
    { str := "Jan", page := 1, x := 0, y := -30 },
    { str := "Feb", page := 1, x := 50, y := -30 },
    { str := "23", page := 1, x := 0, y := -40 },
    { str := "23", page := 1, x := 50, y := -40 },
    { str := "TransUnion", page := 1, x := -40, y := -50 },
    { str := "30", page := 1, x := 0, y := -50 },
    { str := "", page := 1, x := 50, y := -50 } ]

/-- A stream with no occurrence of the sentinel phrase. -/
def c2Items : List TextItem :=
  [ { str := "hello world", page := 1, x := 0, y := 0 } ]

/-- Two markers: the first with a complete grid containing one late status,
the second whose window has a month row but no two-digit year row. -/
def c3Items : List TextItem :=
  [ { str := "Two-Year payment history", page := 1, x := 0, y := 0 },
    { str := "Jan", page := 1, x := 0, y := -30 },
    { str := "23", page := 1, x := 0, y := -40 },
    { str := "TransUnion", page := 1, x := -40, y := -50 },
    { str := "30", page := 1, x := 0, y := -50 },
    { str := "Two-Year payment history", page := 2, x := 0, y := 0 },
    { str := "Jan", page := 2, x := 0, y := -30 },
    { str := "TransUnion", page := 2, x := -40, y := -50 },
    { str := "CO", page := 2, x := 0, y := -50 } ]

/-- The account produced by the first marker of `c3Items`. -/
def c3FirstAccount : Account :=
  { name := "Unknown Account",
    issues := [{ bureau := "TransUnion", month := "Jan", year := "2023",
                 status := "30 Days Late" }] }

/-- The grid window of the second marker of `c3Items`: a month row and a
bureau row, but no row with a two-digit item. -/
def c3SecondWindow : List TextItem :=
  [ { str := "Jan", page := 2, x := 0, y := -30 },
    { str := "TransUnion", page := 2, x := -40, y := -50 },
    { str := "CO", page := 2, x := 0, y := -50 } ]

/-- Same single-marker stream as `c1Items`, kept separate for the
aggregation claim. -/
def c4Items : List TextItem :=
  [ { str := "Two-Year payment history", page := 1, x := 0, y := 0 },
    { str := "Jan", page := 1, x := 0, y := -30 },
    { str := "Feb", page := 1, x := 50, y := -30 },
    { str := "23", page := 1, x := 0, y := -40 },
    { str := "23", page := 1, x := 50, y := -40 },
    { str := "TransUnion", page := 1, x := -40, y := -50 },
    { str := "30", page := 1, x := 0, y := -50 },
    { str := "", page := 1, x := 50, y := -50 } ]

/-- A one-column grid carrying an unrecognised status code. -/
def c5Grid : Grid :=
  { headers := [{ month := "Jan", x := 0, year := "2023" }],
    data := [("TransUnion", ["XX"])] }

/-- Grid-window items for the translation-invariance instance. -/
def c6Items : List TextItem :=
  [ { str := "Jan", page := 1, x := 0, y := -30 },
    { str := "Feb", page := 1, x := 50, y := -30 },
    { str := "23", page := 1, x := 0, y := -40 },
    { str := "TransUnion", page := 1, x := -40, y := -50 },
    { str := "30", page := 1, x := 0, y := -50 } ]

/-- Grid-window items producing two headers, for the header-order
instance. -/
def c7Items : List TextItem :=
  [ { str := "Jan", page := 1, x := 0, y := -30 },
    { str := "Feb", page := 1, x := 50, y := -30 },
    { str := "23", page := 1, x := 0, y := -40 } ]

/-- A marker with two fully upper-case candidate names above it. -/
def c8Items : List TextItem :=
  [ { str := "Two-Year payment history", page := 1, x := 0, y := 0 },
    { str := "ACME BANK", page := 1, x := 0, y := 50 },
    { str := "ZETA CORP", page := 1, x := 0, y := 80 } ]

/-- The marker item of `c8Items`. -/
def c8Marker : TextItem :=
  { str := "Two-Year payment history", page := 1, x := 0, y := 0 }

/-- Grid-window items whose year row carries a non-two-digit item: the row
is classified as the year row because of the "23" item, but the trailing
"x" item also writes a year. -/
def c9CexItems : List TextItem :=
  [ { str := "Jan", page := 1, x := 0, y := -30 },
    { str := "23", page := 1, x := 0, y := -40 },
    { str := "x", page := 1, x := 5, y := -40 } ]

/-- A marker-only stream, with no qualifying name item. -/
def c8EmptyItems : List TextItem :=
  [ { str := "Two-Year payment history", page := 1, x := 0, y := 0 } ]

/-- Header list used in the year-assignment witness. -/
def c9Headers : List Header :=
  [ { month := "Jan", x := 0, year := "N/A" },
    { month := "Feb", x := 50, year := "N/A" } ]

/-- Year-row item used in the year-assignment witness. -/
def c9YearItem : TextItem := { str := "23", page := 1, x := 0, y := -40 }

/-- One marker whose TransUnion row carries a late status and then an
empty-string item nearest the same single column. -/
def c10Items : List TextItem :=
  [ { str := "Two-Year payment history", page := 1, x := 0, y := 0 },
    { str := "Jan", page := 1, x := 0, y := -30 },
    { str := "23", page := 1, x := 0, y := -40 },
    { str := "TransUnion", page := 1, x := -40, y := -50 },
    { str := "30", page := 1, x := 0, y := -50 },
    { str := "", page := 1, x := 1, y := -50 } ]

/-- Header list used in the last-write witness. -/
def c10Headers : List Header := [ { month := "Jan", x := 0, year := "N/A" } ]

/-- Leading bureau-row items used in the last-write witness. -/
def c10Row : List TextItem :=
  [ { str := "TransUnion", page := 1, x := -40, y := -50 },
    { str := "30", page := 1, x := 0, y := -50 } ]

/-- The overwriting empty item of the last-write witness. -/
def c10Item : TextItem := { str := "", page := 1, x := 1, y := -50 }

/-! ## Generic helper lemmas -/

theorem pushAll_eq {α β : Type} (f : α → List β) (l : List α) (acc : List β) :
    pushAll f l acc = acc ++ l.flatMap f := by
  induction l generalizing acc with
  | nil => simp [pushAll]
  | cons a as ih =>
    simp only [pushAll, List.foldl_cons] at *
    rw [ih (acc ++ f a)]
    simp [List.flatMap_cons]

theorem foldl_push_eq {α β : Type} (f : α → β) (l : List α) (acc : List β) :
    l.foldl (fun accs m => accs ++ [f m]) acc = acc ++ l.map f := by
  induction l generalizing acc with
  | nil => simp
  | cons a as ih =>
    simp only [List.foldl_cons]
    rw [ih (acc ++ [f a])]
    simp

theorem mem_insertByKey {α : Type} (key : α → Int) (a b : α) (l : List α) :
    b ∈ insertByKey key a l ↔ b = a ∨ b ∈ l := by
  induction l with
  | nil => simp [insertByKey]
  | cons c cs ih =>
    simp only [insertByKey]
    split
    · simp only [List.mem_cons, ih]
      tauto
    · simp only [List.mem_cons]
      try tauto

theorem mem_sortByKey {α : Type} (key : α → Int) (b : α) (l : List α) :
    b ∈ sortByKey key l ↔ b ∈ l := by
  induction l with
  | nil => simp [sortByKey]
  | cons c cs ih =>
    simp only [sortByKey, mem_insertByKey, List.mem_cons, ih]

theorem length_insertByKey {α : Type} (key : α → Int) (a : α) (l : List α) :
    (insertByKey key a l).length = l.length + 1 := by
  induction l with
  | nil => simp [insertByKey]
  | cons c cs ih =>
    simp only [insertByKey]
    split
    · simp [ih]
    · simp

theorem length_sortByKey {α : Type} (key : α → Int) (l : List α) :
    (sortByKey key l).length = l.length := by
  induction l with
  | nil => simp [sortByKey]
  | cons c cs ih => simp [sortByKey, length_insertByKey, ih]

theorem insertByKey_pairwise {α : Type} (key : α → Int) (a : α) (l : List α)
    (h : l.Pairwise (fun x y => key x ≤ key y)) :
    (insertByKey key a l).Pairwise (fun x y => key x ≤ key y) := by
  induction l with
  | nil => simp [insertByKey]
  | cons c cs ih =>
    rcases List.pairwise_cons.mp h with ⟨hc, hcs⟩
    simp only [insertByKey]
    split
    · refine List.pairwise_cons.mpr ⟨?_, ih hcs⟩
      intro b hb
      rcases (mem_insertByKey key a b cs).mp hb with rfl | hb
      · omega
      · exact hc b hb
    · refine List.pairwise_cons.mpr ⟨?_, h⟩
      intro b hb
      rcases List.mem_cons.mp hb with rfl | hb
      · omega
      · exact le_trans (by omega) (hc b hb)

theorem sortByKey_pairwise {α : Type} (key : α → Int) (l : List α) :
    (sortByKey key l).Pairwise (fun x y => key x ≤ key y) := by
  induction l with
  | nil => simp [sortByKey]
  | cons c cs ih => exact insertByKey_pairwise key c (sortByKey key cs) ih

theorem insertByKey_map {α β : Type} (key1 : α → Int) (key2 : β → Int) (g : α → β)
    (hk : ∀ a b, key2 (g a) < key2 (g b) ↔ key1 a < key1 b) (a : α) (l : List α) :
    insertByKey key2 (g a) (l.map g) = (insertByKey key1 a l).map g := by
  induction l with
  | nil => simp [insertByKey]
  | cons c cs ih =>
    by_cases h : key1 c < key1 a
    · simp only [List.map_cons, insertByKey, if_pos ((hk c a).mpr h), if_pos h,
        List.map_cons, ih]
    · simp only [List.map_cons, insertByKey,
        if_neg (fun hcon => h ((hk c a).mp hcon)), if_neg h, List.map_cons]

theorem sortByKey_map {α β : Type} (key1 : α → Int) (key2 : β → Int) (g : α → β)
    (hk : ∀ a b, key2 (g a) < key2 (g b) ↔ key1 a < key1 b) (l : List α) :
    sortByKey key2 (l.map g) = (sortByKey key1 l).map g := by
  induction l with
  | nil => simp [sortByKey]
  | cons c cs ih =>
    simp only [List.map_cons, sortByKey, ih]
    exact insertByKey_map key1 key2 g hk c (sortByKey key1 cs)

theorem find?_congr {α : Type} {p q : α → Bool} (l : List α)
    (h : ∀ a ∈ l, p a = q a) : l.find? p = l.find? q := by
  induction l with
  | nil => rfl
  | cons c cs ih =>
    have hc := h c (List.mem_cons_self c cs)
    by_cases hp : p c = true
    · rw [List.find?_cons_of_pos _ hp, List.find?_cons_of_pos _ (hc ▸ hp)]
    · rw [List.find?_cons_of_neg _ hp,
        List.find?_cons_of_neg _ (fun hq => hp (hc ▸ hq)),
        ih (fun a ha => h a (List.mem_cons_of_mem c ha))]

/-! ## Specification of the nearest-column scan -/

theorem argminGo_spec (ds : List Int) (bd : Int) (bi i : Nat) :
    (argminGo ds bd bi i = (bd, bi) ∧ ∀ k, (hk : k < ds.length) → bd ≤ ds[k]) ∨
    (∃ k, ∃ hk : k < ds.length,
      argminGo ds bd bi i = (ds[k], i + k) ∧ ds[k] < bd ∧
      (∀ m, (hm : m < ds.length) → ds[k] ≤ ds[m]) ∧
      (∀ m, (hm : m < ds.length) → m < k → ds[k] < ds[m])) := by
  induction ds generalizing bd bi i with
  | nil =>
    left
    exact ⟨rfl, fun k hk => absurd hk (by simp)⟩
  | cons d rest ih =>
    by_cases hd : d < bd
    · rw [show argminGo (d :: rest) bd bi i = argminGo rest d i (i + 1) from by
        simp [argminGo, hd]]
      rcases ih d i (i + 1) with ⟨heq, hall⟩ | ⟨k, hk, heq, hlt, hmin, hstrict⟩
      · right
        refine ⟨0, by simp, by simpa using heq, by simpa using hd, ?_, ?_⟩
        · intro m hm
          cases m with
          | zero => simp
          | succ m2 =>
            simpa using hall m2 (by simpa using hm)
        · intro m hm hm0
          omega
      · right
        refine ⟨k + 1, by simpa using hk, ?_, ?_, ?_, ?_⟩
        · rw [heq]
          simp only [List.getElem_cons_succ]
          congr 1
          omega
        · simpa using lt_trans hlt hd
        · intro m hm
          cases m with
          | zero => simpa using le_of_lt hlt
          | succ m2 => simpa using hmin m2 (by simpa using hm)
        · intro m hm hmk
          cases m with
          | zero => simpa using hlt
          | succ m2 => simpa using hstrict m2 (by simpa using hm) (by omega)
    · rw [show argminGo (d :: rest) bd bi i = argminGo rest bd bi (i + 1) from by
        simp [argminGo, hd]]
      rcases ih bd bi (i + 1) with ⟨heq, hall⟩ | ⟨k, hk, heq, hlt, hmin, hstrict⟩
      · left
        refine ⟨heq, ?_⟩
        intro m hm
        cases m with
        | zero => simpa using le_of_not_lt hd
        | succ m2 => simpa using hall m2 (by simpa using hm)
      · right
        refine ⟨k + 1, by simpa using hk, ?_, ?_, ?_, ?_⟩
        · rw [heq]
          simp only [List.getElem_cons_succ]
          congr 1
          omega
        · simpa using hlt
        · intro m hm
          cases m with
          | zero =>
            simpa using le_of_lt (lt_of_lt_of_le hlt (le_of_not_lt hd))
          | succ m2 => simpa using hmin m2 (by simpa using hm)
        · intro m hm hmk
          cases m with
          | zero => simpa using lt_of_lt_of_le hlt (le_of_not_lt hd)
          | succ m2 => simpa using hstrict m2 (by simpa using hm) (by omega)

theorem closestIdx_spec (hs : List Header) (x : Int) (i : Nat)
    (h : closestIdx hs x = some i) :
    ∃ hi : i < hs.length,
      (∀ j, (hj : j < hs.length) →
        absInt (hs[i].x - x) ≤ absInt (hs[j].x - x)) ∧
      (∀ j, (hj : j < hs.length) → j < i →
        absInt (hs[i].x - x) < absInt (hs[j].x - x)) := by
  cases hs with
  | nil => simp [closestIdx] at h
  | cons h0 hrest =>
    simp only [closestIdx, List.map_cons, Option.some.injEq] at h
    rcases argminGo_spec (hrest.map (fun hh => absInt (hh.x - x)))
        (absInt (h0.x - x)) 0 1 with ⟨heq, hall⟩ | ⟨k, hk, heq, hlt, hmin, hstrict⟩
    · have hi0 : i = 0 := by rw [heq] at h; exact h.symm
      subst hi0
      refine ⟨by simp, ?_, ?_⟩
      · intro j hj
        cases j with
        | zero => simp
        | succ j2 =>
          have := hall j2 (by simpa using hj)
          simpa using this
      · intro j hj hj0
        omega
    · have hk2 : k < hrest.length := by simpa using hk
      have hik : i = k + 1 := by
        rw [heq] at h
        simp only at h
        omega
      subst hik
      have hval : (hrest.map (fun hh => absInt (hh.x - x)))[k] =
          absInt (hrest[k].x - x) := by simp
      refine ⟨by simp; omega, ?_, ?_⟩
      · intro j hj
        simp only [List.getElem_cons_succ]
        cases j with
        | zero =>
          simpa [hval] using le_of_lt hlt
        | succ j2 =>
          have := hmin j2 (by simpa using hj)
          simpa [hval] using this
      · intro j hj hji
        simp only [List.getElem_cons_succ]
        cases j with
        | zero => simpa [hval] using hlt
        | succ j2 =>
          have := hstrict j2 (by simpa using hj) (by omega)
          simpa [hval] using this

theorem closestIdx_lt_length (hs : List Header) (x : Int) (i : Nat)
    (h : closestIdx hs x = some i) : i < hs.length :=
  (closestIdx_spec hs x i h).fst

/-! ## Basic facts about the mutation helpers -/

theorem length_setYear (s : String) (i : Nat) (hs : List Header) :
    (setYear s i hs).length = hs.length := by
  induction hs generalizing i with
  | nil => cases i <;> rfl
  | cons h t ih =>
    cases i with
    | zero => simp [setYear]
    | succ n => simp [setYear, ih]

theorem setYear_month_x (s : String) (i : Nat) (hs : List Header) :
    (setYear s i hs).map (fun h => (h.month, h.x)) =
      hs.map (fun h => (h.month, h.x)) := by
  induction hs generalizing i with
  | nil => cases i <;> rfl
  | cons h t ih =>
    cases i with
    | zero => simp [setYear]
    | succ n => simp [setYear, ih]

theorem assignYears_month_x (hs : List Header) (ys : List TextItem) :
    (assignYears hs ys).map (fun h => (h.month, h.x)) =
      hs.map (fun h => (h.month, h.x)) := by
  induction ys generalizing hs with
  | nil => rfl
  | cons y yt ih =>
    simp only [assignYears, List.foldl_cons]
    cases hcl : closestIdx hs y.x with
    | none =>
      simpa [assignYears, hcl] using ih hs
    | some i =>
      have := ih (setYear ("20" ++ jsTrim y.str) i hs)
      simpa [assignYears, hcl, setYear_month_x] using this

theorem assignYears_x (hs : List Header) (ys : List TextItem) :
    (assignYears hs ys).map Header.x = hs.map Header.x := by
  have h := assignYears_month_x hs ys
  have h2 := congrArg (List.map Prod.snd) h
  simpa [List.map_map, Function.comp] using h2

theorem length_statusFold (hs : List Header) (sts : List String)
    (l : List TextItem) : (statusFold hs sts l).length = sts.length := by
  induction l generalizing sts with
  | nil => rfl
  | cons it t ih =>
    simp only [statusFold, List.foldl_cons]
    cases hcl : closestIdx hs it.x with
    | none => simpa [statusFold, hcl] using ih sts
    | some i =>
      have := ih (sts.set i (jsTrim it.str))
      simpa [statusFold, hcl] using this

/-! ## Issue-scan lemmas -/

theorem flatMap_eq_nil_of {α β : Type} (f : α → List β) (l : List α)
    (h : ∀ a ∈ l, f a = []) : l.flatMap f = [] := by
  induction l with
  | nil => rfl
  | cons a t ih =>
    rw [List.flatMap_cons, h a (List.mem_cons_self a t),
      ih (fun b hb => h b (List.mem_cons_of_mem a hb))]
    rfl

theorem rowIssues_mem (hs : List Header) (b : String) (ss : List String)
    (n i : Nat) (s : String) (hget : ss.get? i = some s)
    (hok : jsTrim s ≠ "OK") (hne : jsTrim s ≠ "") :
    ({ bureau := b,
       month := ((hs.get? (n + i)).map Header.month).getD "N/A",
       year := ((hs.get? (n + i)).map Header.year).getD "N/A",
       status := (legendLookup (jsTrim s)).getD ("Unknown Code: " ++ jsTrim s) }
      : Issue) ∈ rowIssues hs b n ss := by
  induction ss generalizing n i with
  | nil => simp at hget
  | cons s0 rest ih =>
    cases i with
    | zero =>
      have hs0 : s0 = s := by simpa using hget
      subst hs0
      simp only [rowIssues, if_pos (And.intro hok hne), List.mem_append,
        List.mem_singleton]
      left
      rfl
    | succ i2 =>
      have hget2 : rest.get? i2 = some s := by simpa using hget
      have := ih (n + 1) i2 hget2
      simp only [rowIssues, List.mem_append]
      right
      have harith : n + 1 + i2 = n + (i2 + 1) := by omega
      rw [harith] at this
      exact this

theorem rowIssues_eq_nil (hs : List Header) (b : String) (n : Nat)
    (ss : List String) (h : ∀ s ∈ ss, jsTrim s = "OK" ∨ jsTrim s = "") :
    rowIssues hs b n ss = [] := by
  induction ss generalizing n with
  | nil => rfl
  | cons s0 rest ih =>
    have hcond : ¬(jsTrim s0 ≠ "OK" ∧ jsTrim s0 ≠ "") := by
      rcases h s0 (List.mem_cons_self s0 rest) with h1 | h1 <;> simp [h1]
    simp only [rowIssues, if_neg hcond, List.nil_append]
    exact ih (n + 1) (fun s hsm => h s (List.mem_cons_of_mem s0 hsm))

theorem headers_isEmpty_false (g : Grid) (h : g.headers ≠ []) :
    g.headers.isEmpty = false := by
  cases hh : g.headers with
  | nil => exact absurd hh h
  | cons a t => rfl

theorem issuesOf_mem (g : Grid) (hhead : g.headers ≠ [])
    (p : String × List String) (hp : p ∈ g.data) (iss : Issue)
    (hmem : iss ∈ rowIssues g.headers p.1 0 p.2) : iss ∈ issuesOf g := by
  unfold issuesOf
  rw [headers_isEmpty_false g hhead]
  rw [pushAll_eq]
  simp only [Bool.false_eq_true, if_false, List.nil_append]
  exact List.mem_flatMap.mpr ⟨p, hp, hmem⟩

theorem issuesOf_eq_nil (g : Grid)
    (h : ∀ p ∈ g.data, ∀ s ∈ p.2, jsTrim s = "OK" ∨ jsTrim s = "") :
    issuesOf g = [] := by
  unfold issuesOf
  cases hh : g.headers.isEmpty with
  | true => rfl
  | false =>
    rw [pushAll_eq]
    simp only [Bool.false_eq_true, if_false, List.nil_append]
    exact flatMap_eq_nil_of _ _
      (fun p hp => rowIssues_eq_nil g.headers p.1 0 p.2 (h p hp))

/-! ## Claim C1 -/

/-- C1: for the stream forming one marker whose grid window has month row
Jan/Feb, year row 23/23 (each nearest its month header), and a TransUnion
row with 30 nearest Jan and an empty string nearest Feb, the analysis
returns exactly one account with exactly one issue, namely TransUnion, Jan,
2023, 30 Days Late, and no issue for Feb. -/
theorem c1_single_marker_exact_issue :
    analyzeTextContent c1Items =
      Except.ok [{ name := "Unknown Account",
                   issues := [{ bureau := "TransUnion", month := "Jan",
                                year := "2023", status := "30 Days Late" }] }] := by
  decide

/-! ## Claim C2 -/

/-- C2: when no item of the stream contains the sentinel phrase, the
analysis fails with the unsupported-document condition and returns no
account records. -/
theorem c2_no_marker_hard_failure (items : List TextItem)
    (h : ∀ it ∈ items, strIncludes it.str sentinel = false) :
    analyzeTextContent items = Except.error unsupportedMsg := by
  have hm : markersOf items = [] := by
    apply List.filter_eq_nil_iff.mpr
    intro a ha
    simp [h a ha]
  simp [analyzeTextContent, hm]

theorem c2_witness : analyzeTextContent c2Items = Except.error unsupportedMsg :=
  c2_no_marker_hard_failure c2Items (by decide)

/-! ## Claim C5 -/

/-- C5: a cell whose trimmed status is non-empty, not OK, and not a legend
key still yields an issue, labelled Unknown Code followed by the trimmed
code; it is never dropped and never an error. -/
theorem c5_unknown_code_surfaced (g : Grid) (b : String) (ss : List String)
    (i : Nat) (s : String) (hp : (b, ss) ∈ g.data) (hhead : g.headers ≠ [])
    (hget : ss.get? i = some s) (hne : jsTrim s ≠ "") (hok : jsTrim s ≠ "OK")
    (hleg : legendLookup (jsTrim s) = none) :
    ({ bureau := b,
       month := ((g.headers.get? i).map Header.month).getD "N/A",
       year := ((g.headers.get? i).map Header.year).getD "N/A",
       status := "Unknown Code: " ++ jsTrim s } : Issue) ∈ issuesOf g := by
  have h := rowIssues_mem g.headers b ss 0 i s hget hok hne
  rw [hleg] at h
  simp only [Option.getD_none, Nat.zero_add] at h
  exact issuesOf_mem g hhead (b, ss) hp _ h

theorem c5_witness :
    ({ bureau := "TransUnion", month := "Jan", year := "2023",
       status := "Unknown Code: XX" } : Issue) ∈ issuesOf c5Grid := by
  have h := c5_unknown_code_surfaced c5Grid "TransUnion" ["XX"] 0 "XX"
    (by decide) (by decide) (by decide) (by decide) (by decide) (by decide)
  simpa [c5Grid] using h

/-! ## Claim C3 -/

theorem mem_of_mem_gridRows (items : List TextItem) (row : List TextItem)
    (hr : row ∈ gridRows items) (it : TextItem) (hit : it ∈ row) :
    it ∈ items := by
  unfold gridRows at hr
  rw [mem_sortByKey] at hr
  unfold rowsOf at hr
  rcases List.mem_map.mp hr with ⟨k, hk, rfl⟩
  exact (List.mem_filter.mp hit).1

/-- C3: a grid window with no month-qualifying item, or no two-digit item,
parses to the empty grid, which contributes zero issues; with two markers
where the second window lacks a year row and the first account has an
issue, the analysis succeeds and returns only the first account. -/
theorem c3_missing_row_soft_failure (gridItems : List TextItem)
    (h : (∀ it ∈ gridItems, isMonthStr (jsTrim it.str) = false) ∨
         (∀ it ∈ gridItems, isTwoDigitStr (jsTrim it.str) = false)) :
    parsePaymentGrid gridItems = { headers := [], data := [] } ∧
    issuesOf { headers := [], data := [] } = [] ∧
    analyzeTextContent c3Items = Except.ok [c3FirstAccount] := by
  refine ⟨?_, rfl, by decide⟩
  unfold parsePaymentGrid
  by_cases hgi : gridItems.isEmpty = true
  · simp [hgi]
  · rw [if_neg hgi]
    rcases h with hmonth | hyear
    · have hfind : (gridRows gridItems).find? isMonthRow = none := by
        apply List.find?_eq_none.mpr
        intro row hrow hcon
        rcases List.any_eq_true.mp hcon with ⟨it, hitrow, hit⟩
        exact absurd hit
          (by simp [hmonth it (mem_of_mem_gridRows _ _ hrow _ hitrow)])
      rcases hyr : (gridRows gridItems).find? isYearRow with _ | yr <;>
        simp [hfind, hyr]
    · have hfind : (gridRows gridItems).find? isYearRow = none := by
        apply List.find?_eq_none.mpr
        intro row hrow hcon
        rcases List.any_eq_true.mp hcon with ⟨it, hitrow, hit⟩
        exact absurd hit
          (by simp [hyear it (mem_of_mem_gridRows _ _ hrow _ hitrow)])
      rcases hmr : (gridRows gridItems).find? isMonthRow with _ | m <;>
        simp [hfind, hmr]

theorem c3_witness :
    parsePaymentGrid c3SecondWindow = { headers := [], data := [] } ∧
    issuesOf { headers := [], data := [] } = [] ∧
    analyzeTextContent c3Items = Except.ok [c3FirstAccount] :=
  c3_missing_row_soft_failure c3SecondWindow (Or.inr (by decide))

/-! ## Claim C4 -/

/-- C4: when at least one marker exists, the analysis returns exactly the
per-marker accounts, in marker discovery order, filtered to those with at
least one issue; and any marker whose parsed grid has only OK or empty
trimmed statuses yields an account with no issues, hence excluded by that
filter. -/
theorem c4_result_aggregation (items : List TextItem)
    (hne : markersOf items ≠ []) :
    analyzeTextContent items =
      Except.ok (((markersOf items).map (analyzeMarker items)).filter
        (fun a => decide (0 < a.issues.length))) ∧
    ∀ m ∈ markersOf items,
      (∀ p ∈ (parsePaymentGrid (gridWindow items m)).data, ∀ s ∈ p.2,
          jsTrim s = "OK" ∨ jsTrim s = "") →
      (analyzeMarker items m).issues = [] := by
  constructor
  · have hempty : (markersOf items).isEmpty = false := by
      cases hm : markersOf items with
      | nil => exact absurd hm hne
      | cons a t => rfl
    simp only [analyzeTextContent, hempty, Bool.false_eq_true, if_false]
    rw [foldl_push_eq]
    simp
  · intro m hm hok
    simp only [analyzeMarker]
    exact issuesOf_eq_nil _ hok

theorem c4_witness :
    analyzeTextContent c4Items =
      Except.ok (((markersOf c4Items).map (analyzeMarker c4Items)).filter
        (fun a => decide (0 < a.issues.length))) :=
  (c4_result_aggregation c4Items (by decide)).1

/-! ## Claim C7 -/

theorem parse_headers_sorted (gridItems : List TextItem) :
    (parsePaymentGrid gridItems).headers.Pairwise (fun a b => a.x ≤ b.x) := by
  unfold parsePaymentGrid
  by_cases hgi : gridItems.isEmpty = true
  · simp [hgi]
  · rw [if_neg hgi]
    rcases hmr : (gridRows gridItems).find? isMonthRow with _ | m
    · rcases hyr : (gridRows gridItems).find? isYearRow with _ | yr <;>
        simp [hmr, hyr]
    · rcases hyr : (gridRows gridItems).find? isYearRow with _ | yr
      · simp [hmr, hyr]
      · simp only [hmr, hyr]
        have h1 : (mkHeaders m).Pairwise (fun a b => a.x ≤ b.x) :=
          sortByKey_pairwise Header.x _
        have h2 : ((mkHeaders m).map Header.x).Pairwise (fun a b => a ≤ b) :=
          List.pairwise_map.mpr h1
        rw [← assignYears_x (mkHeaders m) yr] at h2
        exact List.pairwise_map.mp h2

/-- C7: the header list of any parsed grid is non-decreasing in x: whenever
index i is before index j, the header at i has x at most the x of the
header at j. -/
theorem c7_headers_ascending (gridItems : List TextItem) (i j : Nat)
    (a b : Header) (hij : i < j)
    (ha : (parsePaymentGrid gridItems).headers.get? i = some a)
    (hb : (parsePaymentGrid gridItems).headers.get? j = some b) :
    a.x ≤ b.x := by
  have hp := parse_headers_sorted gridItems
  rcases List.get?_eq_some.mp ha with ⟨hil, hgeta⟩
  rcases List.get?_eq_some.mp hb with ⟨hjl, hgetb⟩
  have h := List.pairwise_iff_get.mp hp ⟨i, hil⟩ ⟨j, hjl⟩ (Fin.mk_lt_mk.mpr hij)
  rw [hgeta, hgetb] at h
  exact h

theorem c7_witness :
    ({ month := "Jan", x := 0, year := "2023" } : Header).x ≤
      ({ month := "Feb", x := 50, year := "N/A" } : Header).x :=
  c7_headers_ascending c7Items 0 1 _ _ (by decide) (by decide) (by decide)

/-! ## Claim C8 -/

theorem caFold_spec (markerY : Int) (names : List TextItem)
    (hall : ∀ n ∈ names, markerY < n.y) :
    ∀ (md0 : Int) (c0 : TextItem), 0 < md0 →
    ∃ md c, names.foldl (caStep markerY) (some (md0, c0)) = some (md, c) ∧
      ((md = md0 ∧ c = c0) ∨ (c ∈ names ∧ md = c.y - markerY)) ∧
      md ≤ md0 ∧ (∀ n ∈ names, md ≤ n.y - markerY) ∧ 0 < md := by
  induction names with
  | nil =>
    intro md0 c0 h0
    exact ⟨md0, c0, rfl, Or.inl ⟨rfl, rfl⟩, le_refl _, by simp, h0⟩
  | cons n ns ih =>
    intro md0 c0 h0
    have hn : markerY < n.y := hall n (List.mem_cons_self n ns)
    have hall2 : ∀ p ∈ ns, markerY < p.y :=
      fun p hp => hall p (List.mem_cons_of_mem n hp)
    have hd : 0 < n.y - markerY := by omega
    simp only [List.foldl_cons]
    by_cases hlt : n.y - markerY < md0
    · have hstep : caStep markerY (some (md0, c0)) n = some (n.y - markerY, n) := by
        simp [caStep, hd, hlt]
      rw [hstep]
      rcases ih hall2 (n.y - markerY) n hd with ⟨md, c, heq, hsrc, hle, hmin, hpos⟩
      refine ⟨md, c, heq, ?_, by omega, ?_, hpos⟩
      · rcases hsrc with ⟨h1, h2⟩ | ⟨hc, hmd⟩
        · exact Or.inr ⟨h2 ▸ List.mem_cons_self n ns, by rw [h1, h2]⟩
        · exact Or.inr ⟨List.mem_cons_of_mem n hc, hmd⟩
      · intro p hp
        rcases List.mem_cons.mp hp with rfl | hp2
        · exact hle
        · exact hmin p hp2
    · have hstep : caStep markerY (some (md0, c0)) n = some (md0, c0) := by
        have hcond : ¬(0 < n.y - markerY ∧ n.y - markerY < md0) :=
          fun hc => hlt hc.2
        simp only [caStep]
        rw [if_neg hcond]
      rw [hstep]
      rcases ih hall2 md0 c0 h0 with ⟨md, c, heq, hsrc, hle, hmin, hpos⟩
      refine ⟨md, c, heq, ?_, hle, ?_, hpos⟩
      · rcases hsrc with h1 | ⟨hc, hmd⟩
        · exact Or.inl h1
        · exact Or.inr ⟨List.mem_cons_of_mem n hc, hmd⟩
      · intro p hp
        rcases List.mem_cons.mp hp with rfl | hp2
        · omega
        · exact hmin p hp2

theorem qualNames_above (items : List TextItem) (marker : TextItem)
    (n : TextItem) (hn : n ∈ qualNames items marker) : marker.y < n.y := by
  have h := (List.mem_filter.mp hn).2
  simp only [Bool.and_eq_true, decide_eq_true_eq] at h
  exact h.1.1.2

/-- C8: the account name of a marker is resolved among the items on its
page that lie strictly above it, have trimmed length over 2, and equal
their own upper-casing; with no such candidate the name is Unknown
Account, and otherwise some candidate at the smallest positive vertical
distance wins and its trimmed string becomes the name. -/
theorem c8_name_resolution (items : List TextItem) (marker : TextItem) :
    (qualNames items marker = [] →
      accountNameOf items marker = "Unknown Account") ∧
    (qualNames items marker ≠ [] →
      ∃ q ∈ qualNames items marker,
        (∀ p ∈ qualNames items marker, q.y - marker.y ≤ p.y - marker.y) ∧
        0 < q.y - marker.y ∧ accountNameOf items marker = jsTrim q.str) := by
  constructor
  · intro hq
    simp [accountNameOf, hq, sortByKey, closestAbove]
  · intro hq
    have hallq : ∀ n ∈ qualNames items marker, marker.y < n.y :=
      fun n hn => qualNames_above items marker n hn
    rcases hs2 : sortByKey (fun it => -it.y) (qualNames items marker)
      with _ | ⟨n, ns⟩
    · obtain ⟨q, hq2⟩ := List.exists_mem_of_ne_nil _ hq
      have hmem := (mem_sortByKey (fun it => -it.y) q
        (qualNames items marker)).mpr hq2
      rw [hs2] at hmem
      simp at hmem
    · have hsortmem : ∀ p, p ∈ n :: ns ↔ p ∈ qualNames items marker := by
        intro p
        rw [← hs2]
        exact mem_sortByKey (fun it => -it.y) p (qualNames items marker)
      have hn : marker.y < n.y :=
        hallq n ((hsortmem n).mp (List.mem_cons_self n ns))
      have hd : 0 < n.y - marker.y := by omega
      rcases caFold_spec marker.y ns
          (fun p hp => hallq p ((hsortmem p).mp (List.mem_cons_of_mem n hp)))
          (n.y - marker.y) n hd with ⟨md, c, heq, hsrc, hle, hmin, hpos⟩
      have hca : closestAbove (sortByKey (fun it => -it.y)
          (qualNames items marker)) marker.y = some (md, c) := by
        rw [hs2]
        unfold closestAbove
        rw [List.foldl_cons]
        rw [show caStep marker.y none n = some (n.y - marker.y, n) from by
          simp [caStep, hd]]
        exact heq
      have hcq : c ∈ qualNames items marker := by
        rcases hsrc with ⟨h1, h2⟩ | ⟨hc, hmd⟩
        · exact (hsortmem c).mp (h2 ▸ List.mem_cons_self n ns)
        · exact (hsortmem c).mp (List.mem_cons_of_mem n hc)
      have hmd : md = c.y - marker.y := by
        rcases hsrc with ⟨h1, h2⟩ | ⟨hc, hmd⟩
        · rw [h1, h2]
        · exact hmd
      refine ⟨c, hcq, ?_, by omega, ?_⟩
      · intro p hp
        rcases List.mem_cons.mp ((hsortmem p).mpr hp) with rfl | hp2
        · omega
        · have := hmin p hp2
          omega
      · unfold accountNameOf
        simp only [hca]

theorem c8_witness : accountNameOf c8EmptyItems c8Marker = "Unknown Account" :=
  (c8_name_resolution c8EmptyItems c8Marker).1 (by decide)

/-! ## Claim C9 -/

theorem c9_counterexample :
    (parsePaymentGrid c9CexItems).headers.map Header.year = ["20x"] ∧
    ¬ ("20x".length = 4) := by
  decide

theorem mem_setYear (s : String) (i : Nat) (hs : List Header) (h : Header)
    (hm : h ∈ setYear s i hs) :
    h ∈ hs ∨ ∃ h0 ∈ hs, h = { h0 with year := s } := by
  induction hs generalizing i with
  | nil =>
    cases i <;> simp [setYear] at hm
  | cons h1 t ih =>
    cases i with
    | zero =>
      simp only [setYear, List.mem_cons] at hm
      rcases hm with rfl | hm
      · exact Or.inr ⟨h1, List.mem_cons_self h1 t, rfl⟩
      · exact Or.inl (List.mem_cons_of_mem h1 hm)
    | succ n =>
      simp only [setYear, List.mem_cons] at hm
      rcases hm with rfl | hm
      · exact Or.inl (List.mem_cons_self h t)
      · rcases ih n hm with hold | ⟨h0, h0m, rfl⟩
        · exact Or.inl (List.mem_cons_of_mem h1 hold)
        · exact Or.inr ⟨h0, List.mem_cons_of_mem h1 h0m, rfl⟩

theorem assignYears_year_form (hs : List Header) (ys : List TextItem)
    (h2 : ∀ y ∈ ys, isTwoDigitStr (jsTrim y.str) = true)
    (hinit : ∀ h ∈ hs, h.year = "N/A" ∨
      ∃ s, s.length = 2 ∧ s.toList.all Char.isDigit = true ∧ h.year = "20" ++ s) :
    ∀ h3 ∈ assignYears hs ys, h3.year = "N/A" ∨
      ∃ s, s.length = 2 ∧ s.toList.all Char.isDigit = true ∧
        h3.year = "20" ++ s := by
  induction ys generalizing hs with
  | nil =>
    intro h3 h3m
    exact hinit h3 h3m
  | cons y yt ih =>
    intro h3 h3m
    simp only [assignYears, List.foldl_cons] at h3m
    have h2y := h2 y (List.mem_cons_self y yt)
    simp only [isTwoDigitStr, Bool.and_eq_true, beq_iff_eq] at h2y
    have h2t : ∀ y2 ∈ yt, isTwoDigitStr (jsTrim y2.str) = true :=
      fun y2 hy2 => h2 y2 (List.mem_cons_of_mem y hy2)
    cases hcl : closestIdx hs y.x with
    | none =>
      rw [hcl] at h3m
      exact ih hs h2t hinit h3 h3m
    | some i =>
      rw [hcl] at h3m
      refine ih (setYear ("20" ++ jsTrim y.str) i hs) h2t ?_ h3 h3m
      intro h hm
      rcases mem_setYear _ _ _ _ hm with hold | ⟨h0, h0m, rfl⟩
      · exact hinit h hold
      · exact Or.inr ⟨jsTrim y.str, h2y.1, h2y.2, rfl⟩

/-- C9 (amended): the nearest-column index of a year item is the stable
argmin over headers of the absolute x-distance (first header wins ties, in
ascending-x order); one year item writes the year 20 followed by its
trimmed string into the header at that index; and when every year-row item
trims to exactly two digits, every header after year assignment carries
either the initial N/A or a year of the four-character form 20dd.  The
unamended claim also asserted the 20dd form without the two-digit premise,
which the counterexample refutes. -/
theorem c9_year_assignment (hs : List Header) (ys : List TextItem)
    (it : TextItem) (i : Nat) (hit : closestIdx hs it.x = some i)
    (h2 : ∀ y ∈ ys, isTwoDigitStr (jsTrim y.str) = true)
    (hinit : ∀ h ∈ hs, h.year = "N/A") :
    (∃ hi : i < hs.length,
      (∀ j, (hj : j < hs.length) →
        absInt (hs[i].x - it.x) ≤ absInt (hs[j].x - it.x)) ∧
      (∀ j, (hj : j < hs.length) → j < i →
        absInt (hs[i].x - it.x) < absInt (hs[j].x - it.x))) ∧
    assignYears hs [it] = setYear ("20" ++ jsTrim it.str) i hs ∧
    (∀ h3 ∈ assignYears hs ys, h3.year = "N/A" ∨
      ∃ s, s.length = 2 ∧ s.toList.all Char.isDigit = true ∧
        h3.year = "20" ++ s) := by
  refine ⟨closestIdx_spec hs it.x i hit, ?_, ?_⟩
  · simp [assignYears, hit]
  · exact assignYears_year_form hs ys h2 (fun h hm => Or.inl (hinit h hm))

theorem c9_witness :
    assignYears c9Headers [c9YearItem] =
      setYear ("20" ++ jsTrim c9YearItem.str) 0 c9Headers :=
  (c9_year_assignment c9Headers [c9YearItem] c9YearItem 0 (by decide)
    (by decide) (by decide)).2.1

/-! ## Claim C10 -/

/-- C10: in bureau decoding, a later non-label item nearest the same
column overwrites the status written by earlier items (last write wins);
in particular, in the concrete stream where an empty-trimming item follows
a 30 status nearest the same single column, the final status is empty and
the analysis reports no account. -/
theorem c10_last_write_wins (hs : List Header) (bureauName : String)
    (row : List TextItem) (it : TextItem) (i : Nat)
    (hlabel : strIncludes it.str bureauName = false)
    (hc : closestIdx hs it.x = some i) :
    (processBureauRow hs (row ++ [it]) bureauName).get? i =
      some (jsTrim it.str) ∧
    analyzeTextContent c10Items = Except.ok [] := by
  refine ⟨?_, by decide⟩
  unfold processBureauRow
  rw [List.filter_append]
  have hfit : List.filter (fun it2 => !(strIncludes it2.str bureauName)) [it] =
      [it] := by
    simp [hlabel]
  rw [hfit]
  unfold statusFold
  rw [List.foldl_append]
  simp only [List.foldl_cons, List.foldl_nil, hc]
  have hi : i < hs.length := closestIdx_lt_length hs it.x i hc
  have hlen : (statusFold hs (List.replicate hs.length "")
      (row.filter (fun it2 => !(strIncludes it2.str bureauName)))).length =
      hs.length := by
    rw [length_statusFold]
    exact List.length_replicate hs.length ""
  exact List.get?_set_eq_of_lt _ (by
    rw [show (List.foldl
        (fun acc it2 =>
          match closestIdx hs it2.x with
          | some i2 => acc.set i2 (jsTrim it2.str)
          | none => acc)
        (List.replicate hs.length "")
        (List.filter (fun it2 => !strIncludes it2.str bureauName) row)).length =
        hs.length from hlen]
    exact hi)

theorem c10_witness :
    (processBureauRow c10Headers (c10Row ++ [c10Item]) "TransUnion").get? 0 =
      some (jsTrim c10Item.str) :=
  (c10_last_write_wins c10Headers "TransUnion" c10Row c10Item 0 (by decide)
    (by decide)).1

/-! ## Claim C6 -/

theorem rowsOf_shift (d : Int) (items : List TextItem) :
    rowsOf (items.map (shiftX d)) = (rowsOf items).map (List.map (shiftX d)) := by
  unfold rowsOf
  rw [List.map_map]
  have hkeys : items.map ((fun it => jsRound it.y) ∘ shiftX d) =
      items.map (fun it => jsRound it.y) := rfl
  rw [hkeys, List.map_map]
  apply List.map_congr_left
  intro k hk
  show (items.map (shiftX d)).filter (fun it => jsRound it.y == k) =
    (items.filter (fun it => jsRound it.y == k)).map (shiftX d)
  rw [List.filter_map]
  rfl

theorem headY_shift (d : Int) (row : List TextItem) :
    headY (row.map (shiftX d)) = headY row := by
  cases row <;> rfl

theorem gridRows_shift (d : Int) (items : List TextItem) :
    gridRows (items.map (shiftX d)) = (gridRows items).map (List.map (shiftX d)) := by
  unfold gridRows
  rw [rowsOf_shift]
  exact sortByKey_map (fun row => -(headY row)) (fun row => -(headY row))
    (List.map (shiftX d))
    (by intro a b; simp only [headY_shift]) _

theorem isMonthRow_shift (d : Int) (row : List TextItem) :
    isMonthRow (row.map (shiftX d)) = isMonthRow row := by
  unfold isMonthRow
  rw [List.any_map]
  rfl

theorem isYearRow_shift (d : Int) (row : List TextItem) :
    isYearRow (row.map (shiftX d)) = isYearRow row := by
  unfold isYearRow
  rw [List.any_map]
  rfl

theorem hasBureau_shift (d : Int) (name : String) (row : List TextItem) :
    hasBureau name (row.map (shiftX d)) = hasBureau name row := by
  unfold hasBureau
  rw [List.any_map]
  rfl

theorem find?_rows_shift (d : Int) (items : List TextItem)
    (p : List TextItem → Bool)
    (hp : ∀ row, p (row.map (shiftX d)) = p row) :
    (gridRows (items.map (shiftX d))).find? p =
      ((gridRows items).find? p).map (List.map (shiftX d)) := by
  rw [gridRows_shift, List.find?_map]
  congr 1
  apply find?_congr
  intro row hrow
  exact hp row

theorem closestIdx_shift (d : Int) (hs : List Header) (x : Int) :
    closestIdx (hs.map (shiftHx d)) (x + d) = closestIdx hs x := by
  unfold closestIdx
  have hds : (hs.map (shiftHx d)).map (fun h => absInt (h.x - (x + d))) =
      hs.map (fun h => absInt (h.x - x)) := by
    rw [List.map_map]
    apply List.map_congr_left
    intro h hm
    show absInt ((h.x + d) - (x + d)) = absInt (h.x - x)
    congr 1
    omega
  rw [hds]

theorem setYear_shift (d : Int) (s : String) (i : Nat) (hs : List Header) :
    setYear s i (hs.map (shiftHx d)) = (setYear s i hs).map (shiftHx d) := by
  induction hs generalizing i with
  | nil => cases i <;> rfl
  | cons h t ih =>
    cases i with
    | zero => rfl
    | succ n => simp [setYear, ih]

theorem assignYears_shift (d : Int) (hs : List Header) (ys : List TextItem) :
    assignYears (hs.map (shiftHx d)) (ys.map (shiftX d)) =
      (assignYears hs ys).map (shiftHx d) := by
  induction ys generalizing hs with
  | nil => rfl
  | cons y yt ih =>
    cases hc2 : closestIdx hs y.x with
    | none =>
      have hcl : closestIdx (hs.map (shiftHx d)) ((shiftX d y).x) = none := by
        rw [show (shiftX d y).x = y.x + d from rfl, closestIdx_shift d hs y.x]
        exact hc2
      simp only [List.map_cons, assignYears, List.foldl_cons, hcl, hc2]
      exact ih hs
    | some i =>
      have hcl : closestIdx (hs.map (shiftHx d)) ((shiftX d y).x) = some i := by
        rw [show (shiftX d y).x = y.x + d from rfl, closestIdx_shift d hs y.x]
        exact hc2
      simp only [List.map_cons, assignYears, List.foldl_cons, hcl, hc2]
      rw [show ("20" ++ jsTrim (shiftX d y).str) = ("20" ++ jsTrim y.str) from rfl]
      rw [setYear_shift d ("20" ++ jsTrim y.str) i hs]
      exact ih (setYear ("20" ++ jsTrim y.str) i hs)

theorem statusFold_shift (d : Int) (hs : List Header) (sts : List String)
    (l : List TextItem) :
    statusFold (hs.map (shiftHx d)) sts (l.map (shiftX d)) =
      statusFold hs sts l := by
  induction l generalizing sts with
  | nil => rfl
  | cons it t ih =>
    cases hc2 : closestIdx hs it.x with
    | none =>
      have hcl : closestIdx (hs.map (shiftHx d)) ((shiftX d it).x) = none := by
        rw [show (shiftX d it).x = it.x + d from rfl, closestIdx_shift d hs it.x]
        exact hc2
      simp only [List.map_cons, statusFold, List.foldl_cons, hcl, hc2]
      exact ih sts
    | some i =>
      have hcl : closestIdx (hs.map (shiftHx d)) ((shiftX d it).x) = some i := by
        rw [show (shiftX d it).x = it.x + d from rfl, closestIdx_shift d hs it.x]
        exact hc2
      simp only [List.map_cons, statusFold, List.foldl_cons, hcl, hc2]
      rw [show jsTrim (shiftX d it).str = jsTrim it.str from rfl]
      exact ih (sts.set i (jsTrim it.str))

theorem processBureauRow_shift (d : Int) (hs : List Header)
    (row : List TextItem) (name : String) :
    processBureauRow (hs.map (shiftHx d)) (row.map (shiftX d)) name =
      processBureauRow hs row name := by
  unfold processBureauRow
  rw [List.filter_map, List.length_map]
  exact statusFold_shift d hs _ _

theorem mkHeaders_shift (d : Int) (row : List TextItem) :
    mkHeaders (row.map (shiftX d)) = (mkHeaders row).map (shiftHx d) := by
  unfold mkHeaders
  have h1 : (row.map (shiftX d)).map
      (fun it => ({ month := jsTrim it.str, x := it.x, year := "N/A" } : Header)) =
      (row.map
        (fun it => ({ month := jsTrim it.str, x := it.x, year := "N/A" } : Header))).map
        (shiftHx d) := by
    rw [List.map_map, List.map_map]
    rfl
  rw [h1]
  exact sortByKey_map Header.x Header.x (shiftHx d)
    (by intro a b; show a.x + d < b.x + d ↔ a.x < b.x; omega) _

theorem mkData_shift (d : Int) (hs : List Header)
    (tu expv eqv : Option (List TextItem)) :
    mkData (hs.map (shiftHx d)) (tu.map (List.map (shiftX d)))
      (expv.map (List.map (shiftX d))) (eqv.map (List.map (shiftX d))) =
      mkData hs tu expv eqv := by
  unfold mkData
  cases tu <;> cases expv <;> cases eqv <;>
    simp [processBureauRow_shift]

/-- C6: nearest-column assignment, and with it the whole grid parse, is
invariant under a uniform horizontal translation of every item in the
window: each header keeps its month and year and moves by d in x, and the
bureau data is unchanged. -/
theorem c6_translation_invariance (items : List TextItem) (d : Int) :
    (∀ (hs : List Header) (x : Int),
      closestIdx (hs.map (shiftHx d)) (x + d) = closestIdx hs x) ∧
    (parsePaymentGrid (items.map (shiftX d))).headers =
      (parsePaymentGrid items).headers.map (shiftHx d) ∧
    (parsePaymentGrid (items.map (shiftX d))).data =
      (parsePaymentGrid items).data := by
  refine ⟨fun hs x => closestIdx_shift d hs x, ?_⟩
  have hisE : (items.map (shiftX d)).isEmpty = items.isEmpty := by
    cases items <;> rfl
  unfold parsePaymentGrid
  by_cases hgi : items.isEmpty = true
  · rw [hisE, hgi]
    simp
  · rw [hisE, if_neg hgi, if_neg hgi]
    have hfm := find?_rows_shift d items isMonthRow (isMonthRow_shift d)
    have hfy := find?_rows_shift d items isYearRow (isYearRow_shift d)
    have hft := find?_rows_shift d items (hasBureau "TransUnion")
      (fun r => hasBureau_shift d "TransUnion" r)
    have hfe := find?_rows_shift d items (hasBureau "Experian")
      (fun r => hasBureau_shift d "Experian" r)
    have hfq := find?_rows_shift d items (hasBureau "Equifax")
      (fun r => hasBureau_shift d "Equifax" r)
    simp only [hfm, hfy, hft, hfe, hfq]
    cases hm : (gridRows items).find? isMonthRow with
    | none =>
      cases hy : (gridRows items).find? isYearRow <;> simp
    | some m =>
      cases hy : (gridRows items).find? isYearRow with
      | none => simp
      | some yr =>
        simp only [Option.map_some']
        rw [mkHeaders_shift, assignYears_shift]
        exact ⟨rfl, mkData_shift d (assignYears (mkHeaders m) yr) _ _ _⟩

theorem c6_witness :
    (parsePaymentGrid (c6Items.map (shiftX 7))).headers =
      (parsePaymentGrid c6Items).headers.map (shiftHx 7) :=
  (c6_translation_invariance c6Items 7).2.1
